import Mathlib

/-
Verification of `uifont_opsz.cpp`, a macOS CoreText diagnostic probe.

The program's own logic is embedded shallowly:
* C `double` / `CGFloat` values are modelled as rationals (`Rat`).  The values
  themselves are opaque data that the program only stores, copies and compares;
  the single arithmetic operation (`valueDouble += 0.0001f`) is modelled as
  exact rational addition of the rational value of the `float` literal
  `0.0001f` widened to `double` (see `bumpDelta`).
* `CFDictionary` objects with `CFNumber` keys are modelled as association
  lists with `Nat` keys and `Rat` values; `CFDictionaryGetValue` is
  `lookupTag` and `CFDictionaryAddValue` is `dictAdd` (which, like the real
  call, does not overwrite an existing key).
* 32-bit unsigned arithmetic in `make_tag` / `tag_to_string` is modelled on
  `Nat` with explicit `% 2 ^ 32`; C `char` is signed on macOS, so a byte value
  `v` is represented by the integer `charOfByte v`.
* CoreText itself is the external subject under test; its calls appear as
  abstract parameters (axis lists, variation dictionaries, the `PlatformOps`
  record, the `FileOutcome` record for the OS file calls).
-/

namespace UIFontOpsz

/-! ## Tags (`make_tag`, `tag_to_string`, lines 73-85) -/

/-- Conversion of a C `char` value to `uint32_t`: reduction modulo `2 ^ 32`
(two's complement for negative values). -/
def toUInt32 (c : Int) : Nat := (c % (2 ^ 32 : Int)).toNat

/-- The function `make_tag` (lines 83-85):
`((uint32_t)a << 24) | ((uint32_t)b << 16) | ((uint32_t)c << 8) | (uint32_t)d`,
with every shift reduced modulo `2 ^ 32` as `uint32_t` arithmetic is. -/
def make_tag (a b c d : Int) : Nat :=
  ((toUInt32 a <<< 24) % 2 ^ 32) ||| ((toUInt32 b <<< 16) % 2 ^ 32) |||
    ((toUInt32 c <<< 8) % 2 ^ 32) ||| toUInt32 d

/-- The function `tag_to_string` (lines 73-81): the four byte values written into `buffer`,
read back as a NUL-terminated C string (`std::string(buffer)` stops at the
first zero byte, and `buffer[4] = 0`). -/
def tag_to_string (tag : Nat) : List Nat :=
  let b0 := (tag &&& 0xff000000) >>> 24
  let b1 := (tag &&& 0xff0000) >>> 16
  let b2 := (tag &&& 0xff00) >>> 8
  let b3 := tag &&& 0xff
  List.takeWhile (fun b => b != 0) [b0, b1, b2, b3]

/-- The C `char` holding byte value `v` (`0 ≤ v ≤ 255`): on macOS `char` is
signed, so byte values of 128 and above denote negative characters. -/
def charOfByte (v : Nat) : Int := if v < 128 then (v : Int) else (v : Int) - 256

/-- The constant `kOpszTag`, from `make_tag` of the characters o, p, s, z (line 103). -/
def kOpszTag : Nat := make_tag 111 112 115 122

/-- The constant `kWdthTag`, from `make_tag` of the characters w, d, t, h (line 104). -/
def kWdthTag : Nat := make_tag 119 100 116 104

/-- The constant `kWghtTag`, from `make_tag` of the characters w, g, h, t (line 105). -/
def kWghtTag : Nat := make_tag 119 103 104 116

/-! ## The CFDictionary model -/

/-- Lookup, `CFDictionaryGetValue`, on our association-list model of a `CFDictionary`
with `CFNumber` keys (which compare by value). -/
def lookupTag : List (Nat × Rat) → Nat → Option Rat
  | [], _ => none
  | (k, v) :: rest, t => if k = t then some v else lookupTag rest t

/-- Insertion, `CFDictionaryAddValue`: adds the pair only when the key is not already
present (the real call never overwrites an existing key). -/
def dictAdd (d : List (Nat × Rat)) (k : Nat) (v : Rat) : List (Nat × Rat) :=
  match lookupTag d k with
  | some _ => d
  | none => d ++ [(k, v)]

/-- Structural `CFEqual` on two variation dictionaries: structural equality of the
key-value maps (same key set, equal value at every key). -/
def dictEqv (d1 d2 : List (Nat × Rat)) : Bool :=
  d1.all (fun p => decide (lookupTag d2 p.1 = some p.2)) &&
    d2.all (fun p => decide (lookupTag d1 p.1 = some p.2))

/-! ## Axis introspection (lines 122-147 and 220-241) -/

/-- A variation axis as read from `CTFontCopyVariationAxes`: its
`kCTFontVariationAxisIdentifierKey` tag and its
`kCTFontVariationAxisDefaultValueKey` default value (the only two keys the
program reads). -/
structure Axis where
  tag : Nat
  defaultValue : Rat

/-- The resolved value of one axis: the font's explicit variation value for
the axis tag when present, else the axis default (lines 129-140). -/
def resolveAxis (variation : List (Nat × Rat)) (ax : Axis) : Rat :=
  match lookupTag variation ax.tag with
  | some currentDouble => currentDouble
  | none => ax.defaultValue

/-- The first introspection loop (lines 122-147), started with resolved
dictionary `resolvedDict`: for each axis it computes
`valueDouble = default, overridden by the current variation value if present`,
prints the pair, and `CFDictionaryAddValue`s it into
`originalResolvedVariation`.  Returns (printed pairs, final dictionary). -/
def originalPassFrom (variation : List (Nat × Rat)) (resolvedDict : List (Nat × Rat)) :
    List Axis → List (Nat × Rat) × List (Nat × Rat)
  | [] => ([], resolvedDict)
  | ax :: rest =>
    let valueDouble :=
      match lookupTag variation ax.tag with
      | some currentDouble => currentDouble
      | none => ax.defaultValue
    let next := originalPassFrom variation (dictAdd resolvedDict ax.tag valueDouble) rest
    ((ax.tag, valueDouble) :: next.1, next.2)

/-- The dictionary `originalResolvedVariation` after the first loop (lines 114-147). -/
def buildResolved (axes : List Axis) (variation : List (Nat × Rat)) : List (Nat × Rat) :=
  (originalPassFrom variation [] axes).2

/-- The result-font introspection loop (lines 220-241): the same
default-unless-present resolution, print only. -/
def resultPass (variation : List (Nat × Rat)) : List Axis → List (Nat × Rat)
  | [] => []
  | ax :: rest =>
    let valueDouble :=
      match lookupTag variation ax.tag with
      | some currentDouble => currentDouble
      | none => ax.defaultValue
    (ax.tag, valueDouble) :: resultPass variation rest

/-! ## The perturbation sweep (lines 150-190) -/

/-- The additive perturbation applied by `valueDouble += 0.0001f` (line 179):
the `float` literal `0.0001f` widened to `double`, whose exact rational value
is `13743895 / 2 ^ 37` (about `0.000099999997`, not `1 / 10000`). -/
def bumpDelta : Rat := 13743895 / 2 ^ 37

/-- The request-building loop (lines 161-190).  For each axis: look up its
resolved baseline (`assert(currentNumber)` is modelled by returning `none`
when the lookup fails), skip the axis entirely when it is `opsz` and
`omit_opsz` holds, bump it by `bumpDelta` when its tag is `axis_to_bump`,
force it to `wghtValue` when it is the `wght` axis, and
`CFDictionaryAddValue` the result into the accumulated dictionary. -/
def buildRequestFrom (resolved : List (Nat × Rat)) (omitOpsz : Bool) (axisToBump : Nat)
    (wghtValue : Rat) (acc : List (Nat × Rat)) : List Axis → Option (List (Nat × Rat))
  | [] => some acc
  | ax :: rest =>
    match lookupTag resolved ax.tag with
    | none => none
    | some currentDouble =>
      if ax.tag = kOpszTag ∧ omitOpsz = true then
        buildRequestFrom resolved omitOpsz axisToBump wghtValue acc rest
      else
        let v1 := if ax.tag = axisToBump then currentDouble + bumpDelta else currentDouble
        let v2 := if ax.tag = kWghtTag then wghtValue else v1
        buildRequestFrom resolved omitOpsz axisToBump wghtValue (dictAdd acc ax.tag v2) rest

/-- The dictionary `requestedVariation` for one trial (lines 156-190). -/
def buildRequest (axes : List Axis) (resolved : List (Nat × Rat)) (omitOpsz : Bool)
    (axisToBump : Nat) (wghtValue : Rat) : Option (List (Nat × Rat)) :=
  buildRequestFrom resolved omitOpsz axisToBump wghtValue [] axes

/-- The `omit_opsz` loop choices, in source order (line 153). -/
def omitChoices : List Bool := [false, true]

/-- The `axis_to_bump` loop choices, in source order (line 154). -/
def bumpChoices : List Nat := [0, kOpszTag, kWdthTag]

/-- The `wghtValue` loop choices, in source order (line 155). -/
def wghtChoices : List Rat := [100, 200, 300, 400, 500, 600, 700, 800, 900]

/-- The triple-nested trial enumeration (lines 153-155): `omit_opsz`
outermost, then `axis_to_bump`, then `wghtValue` innermost. -/
def sweepParams : List (Bool × Nat × Rat) :=
  omitChoices.flatMap fun omitOpsz =>
    bumpChoices.flatMap fun axisToBump =>
      wghtChoices.map fun wghtValue => (omitOpsz, axisToBump, wghtValue)

/-! ## Deriving the result font (lines 198-213) -/

/-- The CoreText calls the derivation step can use, as an abstract record:
`CTFontGetSize`, `CTFontDescriptorCreateCopyWithAttributes`,
`CTFontCreateWithFontDescriptor`, and the font-level
`CTFontCreateCopyWithAttributes` sitting in the `#if 0` branch.  The
attribute dictionary `{kCTFontVariationAttribute: requestedVariation}` is
represented by the requested variation list it wraps. -/
structure PlatformOps (F D : Type) where
  getSize : F → Rat
  descriptorCreateCopyWithAttributes : D → List (Nat × Rat) → D
  createWithFontDescriptor : D → Rat → F
  fontCreateCopyWithAttributes : F → Rat → List (Nat × Rat) → F

/-- The compiled (`#else`) derivation path, lines 204-212: read the original
font's size, copy the original descriptor with the requested attributes, and
instantiate a font from the new descriptor at that size. -/
def makeResultFont {F D : Type} (P : PlatformOps F D) (originalFont : F)
    (originalDescriptor : D) (requestedVariation : List (Nat × Rat)) : F :=
  let size := P.getSize originalFont
  let resultDescriptor :=
    P.descriptorCreateCopyWithAttributes originalDescriptor requestedVariation
  P.createWithFontDescriptor resultDescriptor size

/-! ## Comparison and reporting (lines 274-288) -/

/-- The `%s` argument a printed boolean becomes (`b ? "true" : "false"`). -/
def boolStr (b : Bool) : String := if b then "true" else "false"

/-- The comparison tail of one trial (lines 274-288): compute
`variationEqual = CFEqual(resultVariation, originalVariation)` structurally,
take the platform's opaque `fontEqual = CFEqual(resultFont, originalFont)`
verdict as an observation, and print one line for each followed by the blank
separator line. -/
def trialCompareOutput (resultVariation originalVariation : List (Nat × Rat))
    (fontEqual : Bool) : List String :=
  let variationEqual := dictEqv resultVariation originalVariation
  ["CFEqual(resultVariation, originalVariation): " ++ boolStr variationEqual,
   "CFEqual(resultFont, originalFont): " ++ boolStr fontEqual,
   ""]

/-! ## Font construction from a file (lines 26-66) and the null handle -/

/-- What the program can learn about a font as a value: its axis list, its
variation dictionary and its point size (the introspection results the rest
of `main` consumes). -/
structure Font where
  axes : List Axis
  variation : List (Nat × Rat)
  size : Rat

/-- The outcomes of the OS calls inside `make_ctfont_from_file`: whether
`fopen` succeeded, the `fstat` return value, the size reported by `fstat`,
and the address returned by `mmap` — the last three are produced but never
inspected by the source. -/
structure FileOutcome where
  openOk : Bool
  fstatErr : Int
  statSize : Nat
  mmapAddr : Nat

/-- The constructor `make_ctfont_from_file` (lines 26-66): on `fopen` failure print
`Could not open: <file>` and return a null handle (`none`); otherwise hand
the mapped bytes to the platform
(`CTFontManagerCreateFontDescriptorFromData` then
`CTFontCreateWithFontDescriptor`, abstracted as `fontFromData`) with no
further validation.  Returns (font handle, printed lines). -/
def make_ctfont_from_file (outcome : FileOutcome)
    (fontFromData : Nat → Nat → Rat → Font) (file : String) (size : Rat) :
    Option Font × List String :=
  if outcome.openOk = false then
    (none, ["Could not open: " ++ file])
  else
    (some (fontFromData outcome.mmapAddr outcome.statSize size), [])

/-- A fault of the C program that the embedding surfaces explicitly:
dereferencing a null `CTFontRef`. -/
inductive Fault where
  | nullDeref

/-- The start of one test-case iteration (lines 107-147): `main` immediately
copies the descriptor, axes and variation of `testCase.font` with no null
check, so a null handle faults; otherwise the first introspection pass runs.
Returns the printed (tag, value) pairs and the resolved dictionary. -/
def runTestCase (font : Option Font) :
    Except Fault (List (Nat × Rat) × List (Nat × Rat)) :=
  match font with
  | none => Except.error Fault.nullDeref
  | some f => Except.ok (originalPassFrom f.variation [] f.axes)

/-! ## Dictionary lemmas -/

theorem lookupTag_append (d1 d2 : List (Nat × Rat)) (t : Nat) :
    lookupTag (d1 ++ d2) t =
      match lookupTag d1 t with
      | some v => some v
      | none => lookupTag d2 t := by
  induction d1 with
  | nil => simp [lookupTag]
  | cons p rest ih =>
    obtain ⟨k, w⟩ := p
    by_cases hk : k = t <;> simp [lookupTag, hk, ih]

theorem lookupTag_dictAdd (d : List (Nat × Rat)) (k : Nat) (v : Rat) (t : Nat) :
    lookupTag (dictAdd d k v) t =
      match lookupTag d t with
      | some w => some w
      | none => if k = t then some v else none := by
  unfold dictAdd
  cases hdk : lookupTag d k with
  | some w =>
    cases hdt : lookupTag d t with
    | some u => simp
    | none =>
      by_cases hkt : k = t
      · subst hkt; rw [hdk] at hdt; exact absurd hdt (by simp)
      · simp [hkt]
  | none =>
    rw [lookupTag_append]
    cases hdt : lookupTag d t <;> simp [lookupTag]

theorem lookupTag_isSome_of_mem_keys {l : List (Nat × Rat)} {t : Nat}
    (h : t ∈ l.map Prod.fst) : (lookupTag l t).isSome = true := by
  induction l with
  | nil => simp at h
  | cons p rest ih =>
    obtain ⟨k, v⟩ := p
    by_cases hk : k = t
    · simp [lookupTag, hk]
    · simp only [List.map_cons, List.mem_cons] at h
      rcases h with h | h
      · exact absurd h.symm hk
      · simp only [lookupTag, if_neg hk]
        exact ih h

/-! ## Characterizing the introspection passes -/

theorem resolveAxis_getD (variation : List (Nat × Rat)) (ax : Axis) :
    resolveAxis variation ax = (lookupTag variation ax.tag).getD ax.defaultValue := by
  unfold resolveAxis
  cases lookupTag variation ax.tag <;> rfl

theorem originalPassFrom_pairs (variation : List (Nat × Rat)) (axes : List Axis) :
    ∀ d0, (originalPassFrom variation d0 axes).1 =
      axes.map fun ax => (ax.tag, resolveAxis variation ax) := by
  induction axes with
  | nil => intro d0; rfl
  | cons ax rest ih => intro d0; simp [originalPassFrom, resolveAxis, ih]

theorem resultPass_pairs (variation : List (Nat × Rat)) (axes : List Axis) :
    resultPass variation axes = axes.map fun ax => (ax.tag, resolveAxis variation ax) := by
  induction axes with
  | nil => rfl
  | cons ax rest ih => simp [resultPass, resolveAxis, ih]

theorem originalPassFrom_dict_lookup (variation : List (Nat × Rat)) (axes : List Axis) :
    ∀ (d0 : List (Nat × Rat)) (t : Nat),
      lookupTag (originalPassFrom variation d0 axes).2 t =
        match lookupTag d0 t with
        | some w => some w
        | none => lookupTag (axes.map fun ax => (ax.tag, resolveAxis variation ax)) t := by
  induction axes with
  | nil => intro d0 t; cases h : lookupTag d0 t <;> simp [originalPassFrom, lookupTag, h]
  | cons ax rest ih =>
    intro d0 t
    simp only [originalPassFrom]
    rw [ih, lookupTag_dictAdd]
    cases h : lookupTag d0 t with
    | some w => simp
    | none =>
      by_cases hk : ax.tag = t <;>
        simp [hk, lookupTag, List.map_cons, resolveAxis]

/-- C4 as a claim theorem needs: both loops compute, at axis `ax`, the pair
`(ax.tag, explicit variation value when present, else default)`. -/
theorem resolved_value_rule (variation : List (Nat × Rat)) (axes : List Axis)
    (d0 : List (Nat × Rat)) :
    (originalPassFrom variation d0 axes).1 =
      (axes.map fun ax => (ax.tag, (lookupTag variation ax.tag).getD ax.defaultValue)) ∧
    resultPass variation axes =
      (axes.map fun ax => (ax.tag, (lookupTag variation ax.tag).getD ax.defaultValue)) := by
  constructor
  · rw [originalPassFrom_pairs]
    simp only [resolveAxis_getD]
  · rw [resultPass_pairs]
    simp only [resolveAxis_getD]

/-! ## The request-building loop -/

theorem buildRequestFrom_isSome (omitOpsz : Bool) (axisToBump : Nat) (wghtValue : Rat) :
    ∀ (axes : List Axis) (resolved acc : List (Nat × Rat)),
      (∀ ax ∈ axes, (lookupTag resolved ax.tag).isSome = true) →
      (buildRequestFrom resolved omitOpsz axisToBump wghtValue acc axes).isSome = true := by
  intro axes
  induction axes with
  | nil => intro resolved acc _; simp [buildRequestFrom]
  | cons ax rest ih =>
    intro resolved acc h
    have hax := h ax (List.mem_cons_self ax rest)
    cases hres : lookupTag resolved ax.tag with
    | none => rw [hres] at hax; exact absurd hax (by simp)
    | some cur =>
      simp only [buildRequestFrom, hres]
      split
      · exact ih resolved acc fun a ha => h a (List.mem_cons_of_mem _ ha)
      · exact ih resolved _ fun a ha => h a (List.mem_cons_of_mem _ ha)

/-- C9: the `assert(currentNumber)` at line 169 never fires — for every axis
tag read from the original axis list, `originalResolvedVariation` (built from
the same list, one `CFDictionaryAddValue` per axis) contains an entry, so the
request builder always completes. -/
theorem request_assert_never_fires (axes : List Axis) (variation : List (Nat × Rat))
    (omitOpsz : Bool) (axisToBump : Nat) (wghtValue : Rat) :
    (buildRequest axes (buildResolved axes variation) omitOpsz axisToBump
      wghtValue).isSome = true := by
  apply buildRequestFrom_isSome
  intro ax hax
  unfold buildResolved
  rw [originalPassFrom_dict_lookup]
  simp only [lookupTag]
  apply lookupTag_isSome_of_mem_keys
  simp only [List.map_map]
  exact List.mem_map_of_mem _ hax

theorem lookupTag_map_of_nodup (f : Axis → Rat) :
    ∀ (axes : List Axis) (ax : Axis), ax ∈ axes → (axes.map Axis.tag).Nodup →
      lookupTag (axes.map fun a => (a.tag, f a)) ax.tag = some (f ax) := by
  intro axes
  induction axes with
  | nil => intro ax h _; simp at h
  | cons a rest ih =>
    intro ax hax hnd
    simp only [List.map_cons, List.nodup_cons] at hnd
    rcases List.mem_cons.mp hax with h | h
    · subst h; simp [lookupTag]
    · by_cases hk : a.tag = ax.tag
      · exact absurd (hk ▸ List.mem_map_of_mem Axis.tag h) hnd.1
      · simp only [List.map_cons, lookupTag, if_neg hk]
        exact ih ax h hnd.2

theorem buildResolved_lookup_of_nodup (axes : List Axis) (variation : List (Nat × Rat))
    (ax : Axis) (hax : ax ∈ axes) (hnd : (axes.map Axis.tag).Nodup) :
    lookupTag (buildResolved axes variation) ax.tag = some (resolveAxis variation ax) := by
  unfold buildResolved
  rw [originalPassFrom_dict_lookup]
  simp only [lookupTag]
  exact lookupTag_map_of_nodup _ axes ax hax hnd

theorem buildRequestFrom_eq (omitOpsz : Bool) (axisToBump : Nat) (wghtValue : Rat)
    (f : Axis → Rat) :
    ∀ (axes : List Axis) (resolved acc : List (Nat × Rat)),
      (∀ ax ∈ axes, lookupTag resolved ax.tag = some (f ax)) →
      (∀ ax ∈ axes, lookupTag acc ax.tag = none) →
      (axes.map Axis.tag).Nodup →
      buildRequestFrom resolved omitOpsz axisToBump wghtValue acc axes =
        some (acc ++ axes.filterMap fun ax =>
          if ax.tag = kOpszTag ∧ omitOpsz = true then none
          else some (ax.tag,
            if ax.tag = kWghtTag then wghtValue
            else if ax.tag = axisToBump then f ax + bumpDelta else f ax)) := by
  intro axes
  induction axes with
  | nil => intro resolved acc _ _ _; simp [buildRequestFrom]
  | cons ax rest ih =>
    intro resolved acc hres hacc hnd
    simp only [List.map_cons, List.nodup_cons] at hnd
    have h1 := hres ax (List.mem_cons_self ax rest)
    have haccax := hacc ax (List.mem_cons_self ax rest)
    simp only [buildRequestFrom, h1]
    by_cases homit : ax.tag = kOpszTag ∧ omitOpsz = true
    · rw [if_pos homit,
        ih resolved acc (fun a ha => hres a (List.mem_cons_of_mem _ ha))
          (fun a ha => hacc a (List.mem_cons_of_mem _ ha)) hnd.2]
      simp [List.filterMap_cons, homit]
    · rw [if_neg homit]
      have hdict : dictAdd acc ax.tag
          (if ax.tag = kWghtTag then wghtValue
           else if ax.tag = axisToBump then f ax + bumpDelta else f ax) =
          acc ++ [(ax.tag,
            if ax.tag = kWghtTag then wghtValue
            else if ax.tag = axisToBump then f ax + bumpDelta else f ax)] := by
        unfold dictAdd; rw [haccax]
      have haccrest : ∀ a ∈ rest,
          lookupTag (acc ++ [(ax.tag,
            if ax.tag = kWghtTag then wghtValue
            else if ax.tag = axisToBump then f ax + bumpDelta else f ax)]) a.tag = none := by
        intro a ha
        rw [lookupTag_append, hacc a (List.mem_cons_of_mem _ ha)]
        have : ax.tag ≠ a.tag := fun hEq =>
          hnd.1 (hEq ▸ List.mem_map_of_mem Axis.tag ha)
        simp [lookupTag, this]
      rw [hdict,
        ih resolved _ (fun a ha => hres a (List.mem_cons_of_mem _ ha)) haccrest hnd.2]
      simp [List.filterMap_cons, homit, List.append_assoc]

theorem buildRequest_eq_filterMap (axes : List Axis) (variation : List (Nat × Rat))
    (omitOpsz : Bool) (axisToBump : Nat) (wghtValue : Rat)
    (hnd : (axes.map Axis.tag).Nodup) :
    buildRequest axes (buildResolved axes variation) omitOpsz axisToBump wghtValue =
      some (axes.filterMap fun ax =>
        if ax.tag = kOpszTag ∧ omitOpsz = true then none
        else some (ax.tag,
          if ax.tag = kWghtTag then wghtValue
          else if ax.tag = axisToBump then resolveAxis variation ax + bumpDelta
          else resolveAxis variation ax)) := by
  unfold buildRequest
  have h := buildRequestFrom_eq omitOpsz axisToBump wghtValue
    (fun ax => resolveAxis variation ax) axes (buildResolved axes variation) []
    (fun ax hax => buildResolved_lookup_of_nodup axes variation ax hax hnd)
    (fun ax _ => rfl) hnd
  simpa using h

theorem lookupTag_filterMap_of_nodup (p : Axis → Prop) [DecidablePred p] (q : Axis → Rat) :
    ∀ (axes : List Axis) (ax : Axis), ax ∈ axes → (axes.map Axis.tag).Nodup → ¬ p ax →
      lookupTag (axes.filterMap fun a => if p a then none else some (a.tag, q a)) ax.tag =
        some (q ax) := by
  intro axes
  induction axes with
  | nil => intro ax h _ _; simp at h
  | cons a rest ih =>
    intro ax hax hnd hp
    simp only [List.map_cons, List.nodup_cons] at hnd
    rcases List.mem_cons.mp hax with h | h
    · subst h
      simp [List.filterMap_cons, if_neg hp, lookupTag]
    · have hne : a.tag ≠ ax.tag := fun hEq => hnd.1 (hEq ▸ List.mem_map_of_mem Axis.tag h)
      by_cases hpa : p a
      · simpa [List.filterMap_cons, if_pos hpa] using ih ax h hnd.2 hp
      · simpa [List.filterMap_cons, if_neg hpa, lookupTag, hne] using ih ax h hnd.2 hp

/-- C2: over the original axes in order, the requested dictionary contains
one entry per axis (skipping `opsz` entirely when `omit_opsz`), whose value
is the resolved baseline, bumped when the tag is `axis_to_bump`, with the
`wght` axis always forced to `wghtValue` regardless of the bump. -/
theorem requested_dictionary (axes : List Axis) (variation : List (Nat × Rat))
    (omitOpsz : Bool) (axisToBump : Nat) (wghtValue : Rat)
    (hnd : (axes.map Axis.tag).Nodup) :
    buildRequest axes (buildResolved axes variation) omitOpsz axisToBump wghtValue =
      some (axes.filterMap fun ax =>
        if ax.tag = kOpszTag ∧ omitOpsz = true then none
        else some (ax.tag,
          if ax.tag = kWghtTag then wghtValue
          else if ax.tag = axisToBump then
            (lookupTag variation ax.tag).getD ax.defaultValue + bumpDelta
          else (lookupTag variation ax.tag).getD ax.defaultValue)) := by
  rw [buildRequest_eq_filterMap axes variation omitOpsz axisToBump wghtValue hnd]
  simp only [resolveAxis_getD]

/-- Witness for C2 at a concrete three-axis font. -/
theorem requested_dictionary_witness :
    (([⟨kOpszTag, 12⟩, ⟨kWdthTag, 100⟩, ⟨kWghtTag, 400⟩] : List Axis).map Axis.tag).Nodup ∧
    buildRequest [⟨kOpszTag, 12⟩, ⟨kWdthTag, 100⟩, ⟨kWghtTag, 400⟩]
        (buildResolved [⟨kOpszTag, 12⟩, ⟨kWdthTag, 100⟩, ⟨kWghtTag, 400⟩] [(kOpszTag, 17)])
        true kWdthTag 300 =
      some [(kWdthTag, 100 + bumpDelta), (kWghtTag, 300)] :=
  ⟨by decide,
    (requested_dictionary [⟨kOpszTag, 12⟩, ⟨kWdthTag, 100⟩, ⟨kWghtTag, 400⟩]
      [(kOpszTag, 17)] true kWdthTag 300 (by decide)).trans (by rfl)⟩

/-- C5 (amended): when `axis_to_bump` names an axis that ends up in the
requested dictionary (and is not `wght`), the requested value is the resolved
baseline plus `bumpDelta = 13743895 / 2 ^ 37`, the `double` value of the
`float` literal `0.0001f` — close to, but not exactly, `0.0001`. -/
theorem bump_is_float_delta (axes : List Axis) (variation : List (Nat × Rat))
    (omitOpsz : Bool) (axisToBump : Nat) (wghtValue : Rat)
    (hnd : (axes.map Axis.tag).Nodup) (ax : Axis) (hax : ax ∈ axes)
    (htag : ax.tag = axisToBump) (hwght : axisToBump ≠ kWghtTag)
    (homit : ¬(axisToBump = kOpszTag ∧ omitOpsz = true)) :
    ∃ d, buildRequest axes (buildResolved axes variation) omitOpsz axisToBump wghtValue =
        some d ∧
      lookupTag d ax.tag = some (resolveAxis variation ax + bumpDelta) := by
  refine ⟨_, buildRequest_eq_filterMap axes variation omitOpsz axisToBump wghtValue hnd, ?_⟩
  have h : lookupTag (axes.filterMap fun a =>
      if a.tag = kOpszTag ∧ omitOpsz = true then none
      else some (a.tag,
        if a.tag = kWghtTag then wghtValue
        else if a.tag = axisToBump then resolveAxis variation a + bumpDelta
        else resolveAxis variation a)) ax.tag =
      some (if ax.tag = kWghtTag then wghtValue
        else if ax.tag = axisToBump then resolveAxis variation ax + bumpDelta
        else resolveAxis variation ax) :=
    lookupTag_filterMap_of_nodup _ _ axes ax hax hnd
      (show ¬(ax.tag = kOpszTag ∧ omitOpsz = true) by rw [htag]; exact homit)
  rw [h, if_neg (show ax.tag ≠ kWghtTag by rw [htag]; exact hwght), if_pos htag]

/-- Witness for C5 at a concrete three-axis font with `axis_to_bump = wdth`. -/
theorem bump_is_float_delta_witness :
    ∃ d, buildRequest [⟨kOpszTag, 12⟩, ⟨kWdthTag, 100⟩, ⟨kWghtTag, 400⟩]
        (buildResolved [⟨kOpszTag, 12⟩, ⟨kWdthTag, 100⟩, ⟨kWghtTag, 400⟩] [])
        false kWdthTag 400 = some d ∧
      lookupTag d kWdthTag =
        some (resolveAxis [] ⟨kWdthTag, 100⟩ + bumpDelta) :=
  bump_is_float_delta [⟨kOpszTag, 12⟩, ⟨kWdthTag, 100⟩, ⟨kWghtTag, 400⟩] [] false
    kWdthTag 400 (by decide) ⟨kWdthTag, 100⟩
    (List.mem_cons_of_mem _ (List.mem_cons_self _ _)) rfl (by decide) (by decide)

/-- Counterexample to C5 as stated: at a concrete font, the value requested
for the bumped `wdth` axis is not its baseline `100` plus exactly `0.0001`
(the code adds the `float` literal `0.0001f`, which is not `1 / 10000`). -/
theorem bump_exact_counterexample :
    (buildRequest [⟨kOpszTag, 12⟩, ⟨kWdthTag, 100⟩, ⟨kWghtTag, 400⟩]
        (buildResolved [⟨kOpszTag, 12⟩, ⟨kWdthTag, 100⟩, ⟨kWghtTag, 400⟩] [])
        false kWdthTag 400).bind (fun d => lookupTag d kWdthTag) ≠
      some ((100 : Rat) + 1 / 10000) := by
  have h : (buildRequest [⟨kOpszTag, 12⟩, ⟨kWdthTag, 100⟩, ⟨kWghtTag, 400⟩]
      (buildResolved [⟨kOpszTag, 12⟩, ⟨kWdthTag, 100⟩, ⟨kWghtTag, 400⟩] [])
      false kWdthTag 400).bind (fun d => lookupTag d kWdthTag) =
      some ((100 : Rat) + bumpDelta) := rfl
  rw [h]
  simp only [ne_eq, Option.some.injEq, bumpDelta]
  norm_num

/-- C3: the sweep enumerates exactly `2 × 3 × 9 = 54` trials, with
`omit_opsz` as the outermost choice (stride 27), `axis_to_bump` in the middle
(stride 9) and the weight value innermost (stride 1). -/
theorem sweep_enumeration :
    sweepParams.length = 54 ∧
    sweepParams = (List.range 54).map fun i =>
      (omitChoices.getD (i / 27) false, bumpChoices.getD (i / 9 % 3) 0,
        wghtChoices.getD (i % 9) 0) := by
  constructor
  · rfl
  · rfl

/-- C8: each trial prints exactly one line for the variation-dictionary
equality boolean and one line for the font-handle equality boolean (plus the
blank separator); the booleans influence nothing but the `true`/`false` text
of their own line — there is no assertion and no other control flow on
them. -/
theorem print_both_booleans (resultVariation originalVariation : List (Nat × Rat))
    (fontEqual : Bool) :
    trialCompareOutput resultVariation originalVariation fontEqual =
      ["CFEqual(resultVariation, originalVariation): " ++
        boolStr (dictEqv resultVariation originalVariation),
       "CFEqual(resultFont, originalFont): " ++ boolStr fontEqual,
       ""] := rfl

/-- C6: the result font comes from the descriptor-level
copy-with-attributes followed by `CTFontCreateWithFontDescriptor` at the
original font's size; two platforms that agree on those three calls produce
identical result fonts no matter what the font-level
`CTFontCreateCopyWithAttributes` (the `#if 0` path) would do. -/
theorem descriptor_level_derivation {F D : Type} (P Q : PlatformOps F D)
    (hsize : P.getSize = Q.getSize)
    (hdesc : P.descriptorCreateCopyWithAttributes = Q.descriptorCreateCopyWithAttributes)
    (hcreate : P.createWithFontDescriptor = Q.createWithFontDescriptor)
    (originalFont : F) (originalDescriptor : D)
    (requestedVariation : List (Nat × Rat)) :
    makeResultFont P originalFont originalDescriptor requestedVariation =
      P.createWithFontDescriptor
        (P.descriptorCreateCopyWithAttributes originalDescriptor requestedVariation)
        (P.getSize originalFont) ∧
    makeResultFont P originalFont originalDescriptor requestedVariation =
      makeResultFont Q originalFont originalDescriptor requestedVariation := by
  constructor
  · rfl
  · unfold makeResultFont
    rw [hsize, hdesc, hcreate]

/-- A concrete platform for the C6 witness. -/
def examplePlatform : PlatformOps Nat Nat where
  getSize := fun _ => 24
  descriptorCreateCopyWithAttributes := fun d _ => d + 1
  createWithFontDescriptor := fun d _ => d * 2
  fontCreateCopyWithAttributes := fun f _ _ => f + 100

/-- The same platform with a different font-level copy-with-attributes. -/
def examplePlatform2 : PlatformOps Nat Nat :=
  { examplePlatform with fontCreateCopyWithAttributes := fun f _ _ => f + 999 }

/-- Witness for C6: the two example platforms differ in the font-level path
yet derive the same result font. -/
theorem descriptor_level_derivation_witness :
    examplePlatform.getSize = examplePlatform2.getSize ∧
    examplePlatform.descriptorCreateCopyWithAttributes =
      examplePlatform2.descriptorCreateCopyWithAttributes ∧
    examplePlatform.createWithFontDescriptor =
      examplePlatform2.createWithFontDescriptor ∧
    (makeResultFont examplePlatform 5 7 [] =
      examplePlatform.createWithFontDescriptor
        (examplePlatform.descriptorCreateCopyWithAttributes 7 [])
        (examplePlatform.getSize 5) ∧
     makeResultFont examplePlatform 5 7 [] = makeResultFont examplePlatform2 5 7 []) :=
  ⟨rfl, rfl, rfl,
    descriptor_level_derivation examplePlatform examplePlatform2 rfl rfl rfl 5 7 []⟩

/-- C7: `make_ctfont_from_file` returns a null handle exactly when `fopen`
fails (whatever `fstat` and `mmap` report), printing the message in that
case; and `main` dereferences the test case's handle with no null check, so a
null handle faults. -/
theorem file_open_only_failure :
    (∀ (outcome : FileOutcome) (fontFromData : Nat → Nat → Rat → Font)
        (file : String) (size : Rat),
      ((make_ctfont_from_file outcome fontFromData file size).1 = none ↔
        outcome.openOk = false) ∧
      make_ctfont_from_file ⟨false, outcome.fstatErr, outcome.statSize, outcome.mmapAddr⟩
          fontFromData file size =
        (none, ["Could not open: " ++ file])) ∧
    runTestCase none = Except.error Fault.nullDeref := by
  constructor
  · intro outcome fontFromData file size
    constructor
    · unfold make_ctfont_from_file
      cases h : outcome.openOk <;> simp [h]
    · rfl
  · rfl

/-! ## The tag round trip (C10) -/

theorem shiftLeft_and_shiftLeft (x y k : Nat) :
    (x <<< k) &&& (y <<< k) = (x &&& y) <<< k := by
  apply Nat.eq_of_testBit_eq
  intro i
  simp only [Nat.testBit_and, Nat.testBit_shiftLeft]
  by_cases h : k ≤ i
  · simp [h]
  · simp [h]

theorem and_shiftLeft_eq_zero (v y k : Nat) (hv : v < 2 ^ k) : v &&& (y <<< k) = 0 := by
  apply Nat.zero_of_testBit_eq_false
  intro i
  simp only [Nat.testBit_and, Nat.testBit_shiftLeft]
  by_cases h : k ≤ i
  · have hvi : v.testBit i = false :=
      Nat.testBit_lt_two_pow (lt_of_lt_of_le hv (Nat.pow_le_pow_right (by norm_num) h))
    simp [hvi]
  · simp [h]

theorem byte_slice (k u v : Nat) (hv : v < 2 ^ k) :
    ((2 ^ k * u + v) &&& (255 <<< k)) >>> k = u % 256 := by
  rw [Nat.mul_add_lt_is_or hv, Nat.and_distrib_right]
  have h1 : 2 ^ k * u &&& (255 <<< k) = (u &&& 255) <<< k := by
    rw [Nat.mul_comm, ← Nat.shiftLeft_eq, shiftLeft_and_shiftLeft]
  have h2 : v &&& (255 <<< k) = 0 := and_shiftLeft_eq_zero v 255 k hv
  rw [h1, h2, Nat.or_zero, Nat.shiftLeft_eq, Nat.shiftRight_eq_div_pow,
    Nat.mul_div_cancel _ (Nat.two_pow_pos k)]
  have h255 : (255 : Nat) = 2 ^ 8 - 1 := by norm_num
  rw [h255, Nat.and_pow_two_sub_one_eq_mod]

theorem toUInt32_charOfByte_lt (v : Nat) (hv : v < 128) : toUInt32 (charOfByte v) = v := by
  unfold toUInt32 charOfByte
  rw [if_pos hv]
  omega

theorem toUInt32_charOfByte_ge (v : Nat) (h1 : 128 ≤ v) (h2 : v < 256) :
    toUInt32 (charOfByte v) = v + 4294967040 := by
  unfold toUInt32 charOfByte
  rw [if_neg (by omega)]
  omega

theorem tag_component_24 (a : Nat) (ha : a < 256) :
    (toUInt32 (charOfByte a) <<< 24) % 2 ^ 32 = a * 2 ^ 24 := by
  rw [Nat.shiftLeft_eq]
  rcases Nat.lt_or_ge a 128 with h | h
  · rw [toUInt32_charOfByte_lt a h]; omega
  · rw [toUInt32_charOfByte_ge a h ha]; omega

/-- For a high byte up to `0xff` (whose `char` is sign-extended and wrapped,
losing nothing after the 24-bit shift) and low bytes up to `0x7f`, `make_tag`
packs the four bytes big-endian. -/
theorem make_tag_bytes (a b c d : Nat) (ha : a < 256) (hb : b < 128) (hc : c < 128)
    (hd : d < 128) :
    make_tag (charOfByte a) (charOfByte b) (charOfByte c) (charOfByte d) =
      2 ^ 24 * a + 2 ^ 16 * b + 2 ^ 8 * c + d := by
  unfold make_tag
  rw [tag_component_24 a ha, Nat.shiftLeft_eq, Nat.shiftLeft_eq,
    toUInt32_charOfByte_lt b hb, toUInt32_charOfByte_lt c hc, toUInt32_charOfByte_lt d hd]
  have hb' : (b * 2 ^ 16) % 2 ^ 32 = b * 2 ^ 16 := by omega
  have hc' : (c * 2 ^ 8) % 2 ^ 32 = c * 2 ^ 8 := by omega
  rw [hb', hc']
  have h1 : a * 2 ^ 24 ||| b * 2 ^ 16 = a * 2 ^ 24 + b * 2 ^ 16 := by
    have h := (Nat.mul_add_lt_is_or (show b * 2 ^ 16 < 2 ^ 23 by omega) (2 * a)).symm
    rw [show 2 ^ 23 * (2 * a) = a * 2 ^ 24 by ring] at h
    exact h
  have h2 : a * 2 ^ 24 + b * 2 ^ 16 ||| c * 2 ^ 8 =
      a * 2 ^ 24 + b * 2 ^ 16 + c * 2 ^ 8 := by
    have h := (Nat.mul_add_lt_is_or (show c * 2 ^ 8 < 2 ^ 15 by omega)
      (a * 2 ^ 9 + b * 2)).symm
    rw [show 2 ^ 15 * (a * 2 ^ 9 + b * 2) = a * 2 ^ 24 + b * 2 ^ 16 by ring] at h
    exact h
  have h3 : a * 2 ^ 24 + b * 2 ^ 16 + c * 2 ^ 8 ||| d =
      a * 2 ^ 24 + b * 2 ^ 16 + c * 2 ^ 8 + d := by
    have h := (Nat.mul_add_lt_is_or (show d < 2 ^ 7 by omega)
      (a * 2 ^ 17 + b * 2 ^ 9 + c * 2)).symm
    rw [show 2 ^ 7 * (a * 2 ^ 17 + b * 2 ^ 9 + c * 2) =
      a * 2 ^ 24 + b * 2 ^ 16 + c * 2 ^ 8 by ring] at h
    exact h
  rw [h1, h2, h3]
  ring

theorem tag_to_string_bytes (a b c d : Nat) (ha0 : 1 ≤ a) (ha : a < 256)
    (hb0 : 1 ≤ b) (hb : b < 128) (hc0 : 1 ≤ c) (hc : c < 128)
    (hd0 : 1 ≤ d) (hd : d < 128) :
    tag_to_string (2 ^ 24 * a + 2 ^ 16 * b + 2 ^ 8 * c + d) = [a, b, c, d] := by
  unfold tag_to_string
  have e0 : ((2 ^ 24 * a + 2 ^ 16 * b + 2 ^ 8 * c + d) &&& 0xff000000) >>> 24 = a := by
    rw [show (0xff000000 : Nat) = 255 <<< 24 from rfl,
      show 2 ^ 24 * a + 2 ^ 16 * b + 2 ^ 8 * c + d =
        2 ^ 24 * a + (2 ^ 16 * b + 2 ^ 8 * c + d) by ring,
      byte_slice 24 a _ (by omega)]
    omega
  have e1 : ((2 ^ 24 * a + 2 ^ 16 * b + 2 ^ 8 * c + d) &&& 0xff0000) >>> 16 = b := by
    rw [show (0xff0000 : Nat) = 255 <<< 16 from rfl,
      show 2 ^ 24 * a + 2 ^ 16 * b + 2 ^ 8 * c + d =
        2 ^ 16 * (2 ^ 8 * a + b) + (2 ^ 8 * c + d) by ring,
      byte_slice 16 _ _ (by omega)]
    omega
  have e2 : ((2 ^ 24 * a + 2 ^ 16 * b + 2 ^ 8 * c + d) &&& 0xff00) >>> 8 = c := by
    rw [show (0xff00 : Nat) = 255 <<< 8 from rfl,
      show 2 ^ 24 * a + 2 ^ 16 * b + 2 ^ 8 * c + d =
        2 ^ 8 * (2 ^ 16 * a + 2 ^ 8 * b + c) + d by ring,
      byte_slice 8 _ _ (by omega)]
    omega
  have e3 : (2 ^ 24 * a + 2 ^ 16 * b + 2 ^ 8 * c + d) &&& 0xff = d := by
    rw [show (0xff : Nat) = 2 ^ 8 - 1 by norm_num, Nat.and_pow_two_sub_one_eq_mod]
    omega
  rw [e0, e1, e2, e3]
  have pa : (a != 0) = true := by simp; omega
  have pb : (b != 0) = true := by simp; omega
  have pc : (c != 0) = true := by simp; omega
  have pd : (d != 0) = true := by simp; omega
  simp [List.takeWhile, pa, pb, pc, pd]

/-- C10 (amended): the round trip holds for nonzero byte values when the
last three are at most `0x7f`; the first byte may reach `0xff`, since the
sign-extended bits that `(uint32_t)a << 24` produces fall off the 32-bit
top.  (Bytes of `0x80`-`0xff` in the last three positions sign-extend into
higher bytes of the tag, breaking the round trip — see the
counterexample.) -/
theorem tag_round_trip (a b c d : Nat) (ha0 : 1 ≤ a) (ha : a ≤ 255)
    (hb0 : 1 ≤ b) (hb : b ≤ 127) (hc0 : 1 ≤ c) (hc : c ≤ 127)
    (hd0 : 1 ≤ d) (hd : d ≤ 127) :
    tag_to_string (make_tag (charOfByte a) (charOfByte b) (charOfByte c)
      (charOfByte d)) = [a, b, c, d] := by
  rw [make_tag_bytes a b c d (by omega) (by omega) (by omega) (by omega)]
  exact tag_to_string_bytes a b c d ha0 (by omega) hb0 (by omega) hc0 (by omega)
    hd0 (by omega)

/-- Witness for C10 at the `opsz` tag characters. -/
theorem tag_round_trip_witness :
    (1 ≤ 111 ∧ 111 ≤ 255 ∧ 1 ≤ 112 ∧ 112 ≤ 127 ∧ 1 ≤ 115 ∧ 115 ≤ 127 ∧
      1 ≤ 122 ∧ 122 ≤ 127) ∧
    tag_to_string (make_tag (charOfByte 111) (charOfByte 112) (charOfByte 115)
      (charOfByte 122)) = [111, 112, 115, 122] :=
  ⟨by decide, tag_round_trip 111 112 115 122 (by decide) (by decide) (by decide)
    (by decide) (by decide) (by decide) (by decide) (by decide)⟩

/-- Counterexample to C10 as stated: byte value `128` is a negative `char`
on macOS, and `(uint32_t)b` sign-extends it, so the second byte `0x80`
pollutes the top byte of the tag — the string reads back `[255, 128, 1, 1]`,
not `[1, 128, 1, 1]`. -/
theorem tag_round_trip_counterexample :
    tag_to_string (make_tag (charOfByte 1) (charOfByte 128) (charOfByte 1)
      (charOfByte 1)) ≠ [1, 128, 1, 1] := by decide

end UIFontOpsz
